import Mathlib

/-!
Shallow embedding of the inventory-allocation core of the repository.

Source files embedded:
- src/backend/src/services/orderService.js      (OrderService.placeOrder, getAllOrders)
- src/unnamed/part_005                          (ProductRepository: findByIdWithLock, deductStock)
- src/unnamed/part_006                          (OrderRepository: create, findAll)
- src/unnamed/part_002                          (schema: products.stock INTEGER CHECK (stock >= 0),
                                                 orders.quantity INTEGER, ids SERIAL, created_at)
- src/backend/src/controllers/orderController.js (OrderController.placeOrder input validation)

Modelling choices, faithful to the source:
- JavaScript numbers are modelled as exact rationals (ℚ); the service code performs
  only order comparisons and subtraction on them, which ℚ models exactly.
- The products table (PRIMARY KEY id) is a partial map from ids to rows.
- The orders table is the list of inserted rows, in insertion order; SERIAL ids and
  created_at timestamps are modelled by per-state counters.
- A parameterised SQL statement that feeds a JavaScript number into an INTEGER column
  or comparison (parameter $1 of deductStock, the quantity column of create) raises a
  database error when the number is not an integer (PostgreSQL rejects the cast of a
  non-integral literal to INTEGER); this is modelled by returning none, which the
  catch block of placeOrder turns into the INTERNAL_ERROR result after ROLLBACK.
- BEGIN/COMMIT/ROLLBACK are modelled by returning either the updated state (COMMIT)
  or the original state (ROLLBACK) from placeOrder.
-/

/-- A row of the products table: `{ id, name, stock }`; the id is the key of
the `products` map of `DBState`. -/
structure Product where
  name : String
  stock : ℚ
  deriving DecidableEq, Repr

/-- A row of the orders table: `{ id, product_id, quantity, status, created_at }`. -/
structure Order where
  id : ℕ
  productId : ℕ
  quantity : ℚ
  status : String
  createdAt : ℕ
  deriving DecidableEq, Repr

/-- The database state seen by the service: the products table, the orders table,
the orders SERIAL counter and a clock supplying `NOW()` timestamps. -/
structure DBState where
  products : ℕ → Option Product
  orders : List Order
  nextOrderId : ℕ
  clock : ℕ

namespace ProductRepository

/-- Embeds `ProductRepository.findByIdWithLock` (src/unnamed/part_005, lines 13-17):
`SELECT * FROM products WHERE id = $1 FOR UPDATE`, returning the row or null. -/
def findByIdWithLock (st : DBState) (productId : ℕ) : Option Product :=
  st.products productId

/-- Embeds `ProductRepository.deductStock` (src/unnamed/part_005, lines 37-46):
`UPDATE products SET stock = stock - $1 WHERE id = $2 AND stock >= $1`, returning
`rowCount > 0`. The parameter $1 is bound to an INTEGER column, so a non-integral
JavaScript number raises a database error, modelled as `none`. -/
def deductStock (st : DBState) (productId : ℕ) (quantityToDeduct : ℚ) :
    Option (Bool × DBState) :=
  if quantityToDeduct.den = 1 then
    match st.products productId with
    | none => some (false, st)
    | some p =>
      if quantityToDeduct ≤ p.stock then
        some (true,
          { st with
            products := fun j =>
              if j = productId then some { p with stock := p.stock - quantityToDeduct }
              else st.products j })
      else some (false, st)
  else none

end ProductRepository

namespace OrderRepository

/-- Embeds `OrderRepository.create` (src/unnamed/part_006, lines 15-23):
`INSERT INTO orders (product_id, quantity, status, created_at) VALUES ($1,$2,$3,NOW())
RETURNING *`. The quantity column is INTEGER, so a non-integral number raises a
database error, modelled as `none`. -/
def create (st : DBState) (productId : ℕ) (quantity : ℚ) (status : String) :
    Option (Order × DBState) :=
  if quantity.den = 1 then
    let o : Order :=
      { id := st.nextOrderId, productId := productId, quantity := quantity,
        status := status, createdAt := st.clock }
    some (o,
      { st with
        orders := st.orders ++ [o],
        nextOrderId := st.nextOrderId + 1,
        clock := st.clock + 1 })
  else none

end OrderRepository

/-- The typed outcomes of `OrderService.placeOrder`, one constructor per return site
of src/backend/src/services/orderService.js (lines 43-126), named after the `code`
field of each returned object. -/
inductive PlaceOrderResult where
  | productNotFound
  | invalidQuantity
  | insufficientStock (availableStock : ℚ)
  | stockDeductionFailed
  | internalError
  | success (order : Order)
  deriving DecidableEq, Repr

/-- Whether the `success` field of the result is true. -/
def PlaceOrderResult.isSuccess : PlaceOrderResult → Bool
  | .success _ => true
  | _ => false

namespace OrderService

open ProductRepository

/-- Embeds `OrderService.placeOrder` (src/backend/src/services/orderService.js,
lines 33-130). Step order follows the source: product lookup with lock first
(lines 41-51), then the `quantity <= 0` check (lines 54-62), then the stock check
(lines 69-78), then `deductStock` (lines 81-92), then `orderRepository.create`
(line 95) and COMMIT. Every ROLLBACK path returns the original state; a database
error (modelled `none`) is handled by the catch block as INTERNAL_ERROR after
ROLLBACK. -/
def placeOrder (st : DBState) (productId : ℕ) (quantity : ℚ) :
    PlaceOrderResult × DBState :=
  match ProductRepository.findByIdWithLock st productId with
  | none => (.productNotFound, st)
  | some product =>
    if quantity ≤ 0 then (.invalidQuantity, st)
    else if product.stock < quantity then (.insufficientStock product.stock, st)
    else
      match ProductRepository.deductStock st productId quantity with
      | none => (.internalError, st)
      | some (false, _) => (.stockDeductionFailed, st)
      | some (true, st1) =>
        match OrderRepository.create st1 productId quantity "CONFIRMED" with
        | none => (.internalError, st)
        | some (o, st2) => (.success o, st2)

end OrderService

/-- The validation outcomes of `OrderController.placeOrder`
(src/backend/src/controllers/orderController.js, lines 26-66): either a rejection
produced by the controller itself, or the service result forwarded. -/
inductive ControllerResult where
  | invalidProductId
  | invalidQuantity
  | serviceResult (r : PlaceOrderResult)
  deriving DecidableEq, Repr

namespace OrderController

/-- Embeds `OrderController.placeOrder` (src/backend/src/controllers/orderController.js,
lines 26-66) for a request body carrying numeric `productId` and `quantity`:
`productId <= 0` is rejected as INVALID_PRODUCT_ID (lines 38-44), `quantity <= 0`
as INVALID_QUANTITY (lines 46-52), before the service is called (line 55). -/
def placeOrder (st : DBState) (productId : ℕ) (quantity : ℚ) :
    ControllerResult × DBState :=
  if productId ≤ 0 then (.invalidProductId, st)
  else if quantity ≤ 0 then (.invalidQuantity, st)
  else
    let rs := OrderService.placeOrder st productId quantity
    (.serviceResult rs.1, rs.2)

end OrderController

/-- The stock of product `r` as the monitoring reads see it: `some` of the stock of
the row, or `none` when the row does not exist. -/
def optionStock (st : DBState) (r : ℕ) : Option ℚ :=
  (st.products r).map Product.stock

/-- Sum of the quantities of the CONFIRMED orders recorded against product `r`. -/
def confirmedSum (orders : List Order) (r : ℕ) : ℚ :=
  ((orders.filter (fun o => o.productId == r && o.status == "CONFIRMED")).map
    Order.quantity).sum

/-- Runs a sequence of `placeOrder` calls, threading the state. -/
def runCalls (st : DBState) (calls : List (ℕ × ℚ)) : DBState :=
  calls.foldl (fun s c => (OrderService.placeOrder s c.1 c.2).2) st

/-- Sum of the quantities of the calls in the sequence that return success and
target product `r`, evaluated along the run from `st`. -/
def successSum (r : ℕ) : DBState → List (ℕ × ℚ) → ℚ
  | _, [] => 0
  | st, c :: cs =>
    (if (OrderService.placeOrder st c.1 c.2).1.isSuccess = true ∧ c.1 = r then c.2 else 0)
    + successSum r (OrderService.placeOrder st c.1 c.2).2 cs

/-- The ledger rows appended by one `placeOrder` call, read off its result: the
created order on the success path, nothing otherwise. -/
def successOrders : PlaceOrderResult → List Order
  | .success o => [o]
  | _ => []

/-- A row of the result set of `OrderRepository.findAll` (src/unnamed/part_006,
lines 40-55): the order columns joined with `p.name as product_name`. -/
structure OrderWithProduct where
  id : ℕ
  productId : ℕ
  quantity : ℚ
  status : String
  createdAt : ℕ
  productName : String
  deriving DecidableEq, Repr

/-- The comparison realising `ORDER BY o.created_at DESC`: `a` may precede `b`
iff the creation time of `a` is at least that of `b`. -/
def createdDesc (a b : OrderWithProduct) : Prop :=
  b.createdAt ≤ a.createdAt

instance : DecidableRel createdDesc :=
  fun a b => Nat.decLe b.createdAt a.createdAt

instance : IsTotal OrderWithProduct createdDesc :=
  ⟨fun a b => le_total b.createdAt a.createdAt⟩

instance : IsTrans OrderWithProduct createdDesc :=
  ⟨fun _ _ _ h1 h2 => le_trans h2 h1⟩

/-- Embeds `OrderRepository.findAll` (src/unnamed/part_006, lines 40-55):
`SELECT o.*, p.name as product_name FROM orders o JOIN products p ON
o.product_id = p.id ORDER BY o.created_at DESC`. The inner join keeps exactly the
orders whose product row exists; the ORDER BY is modelled by sorting the joined
rows by creation time descending. -/
def OrderRepository.findAll (st : DBState) : List OrderWithProduct :=
  List.insertionSort createdDesc
    (st.orders.filterMap (fun o =>
      (st.products o.productId).map (fun p =>
        { id := o.id, productId := o.productId, quantity := o.quantity,
          status := o.status, createdAt := o.createdAt, productName := p.name })))

/-- A database state with no products and an empty ledger. -/
def stEmpty : DBState :=
  { products := fun _ => none, orders := [], nextOrderId := 1, clock := 0 }

/-- The initial state of Scenario A: one resource (id 1) with quantity 5,
empty ledger. -/
def stA : DBState :=
  { products := fun j => if j = 1 then some { name := "r", stock := 5 } else none,
    orders := [], nextOrderId := 1, clock := 0 }

/-- Scenario A after `allocate(r, 3)`. -/
def stA1 : DBState := (OrderService.placeOrder stA 1 3).2

/-- Scenario A after `allocate(r, 3)` and the rejected second `allocate(r, 3)`. -/
def stA2 : DBState := (OrderService.placeOrder stA1 1 3).2

/-- A state with one product and two confirmed orders against it, the older one
first in insertion order, used to exercise `OrderRepository.findAll`. -/
def stC9 : DBState :=
  { products := fun j => if j = 1 then some { name := "Widget", stock := 3 } else none,
    orders := [{ id := 1, productId := 1, quantity := 1, status := "CONFIRMED", createdAt := 0 },
               { id := 2, productId := 1, quantity := 1, status := "CONFIRMED", createdAt := 1 }],
    nextOrderId := 3, clock := 2 }

/-! ## Helper lemmas about `placeOrder` -/

theorem placeOrder_success_eq (st : DBState) (pid : ℕ) (p : Product) (q : ℚ)
    (hp : st.products pid = some p) (h0 : ¬ q ≤ 0) (hs : ¬ p.stock < q) (hd : q.den = 1) :
    OrderService.placeOrder st pid q =
      (.success { id := st.nextOrderId, productId := pid, quantity := q,
                  status := "CONFIRMED", createdAt := st.clock },
       { products := fun j => if j = pid then some { name := p.name, stock := p.stock - q }
                     else st.products j,
         orders := st.orders ++ [{ id := st.nextOrderId, productId := pid, quantity := q,
                                   status := "CONFIRMED", createdAt := st.clock }],
         nextOrderId := st.nextOrderId + 1, clock := st.clock + 1 }) := by
  simp only [OrderService.placeOrder, ProductRepository.findByIdWithLock, hp,
    ProductRepository.deductStock, OrderRepository.create, if_pos hd, if_neg h0, if_neg hs,
    if_pos (not_lt.mp hs)]

theorem placeOrder_cases (st : DBState) (pid : ℕ) (q : ℚ) :
    ((OrderService.placeOrder st pid q).1.isSuccess = false ∧
      (OrderService.placeOrder st pid q).2 = st) ∨
    (∃ p, st.products pid = some p ∧ 0 < q ∧ q ≤ p.stock ∧ q.den = 1 ∧
      OrderService.placeOrder st pid q =
        (.success { id := st.nextOrderId, productId := pid, quantity := q,
                    status := "CONFIRMED", createdAt := st.clock },
         { products := fun j => if j = pid then some { name := p.name, stock := p.stock - q }
                       else st.products j,
           orders := st.orders ++ [{ id := st.nextOrderId, productId := pid, quantity := q,
                                     status := "CONFIRMED", createdAt := st.clock }],
           nextOrderId := st.nextOrderId + 1, clock := st.clock + 1 })) := by
  rcases hp : st.products pid with _ | p
  · left
    simp [OrderService.placeOrder, ProductRepository.findByIdWithLock, hp,
      PlaceOrderResult.isSuccess]
  · by_cases h0 : q ≤ 0
    · left
      simp [OrderService.placeOrder, ProductRepository.findByIdWithLock, hp, if_pos h0,
        PlaceOrderResult.isSuccess]
    · by_cases hs : p.stock < q
      · left
        simp [OrderService.placeOrder, ProductRepository.findByIdWithLock, hp, if_neg h0,
          if_pos hs, PlaceOrderResult.isSuccess]
      · by_cases hd : q.den = 1
        · right
          exact ⟨p, rfl, not_le.mp h0, not_lt.mp hs, hd,
            placeOrder_success_eq st pid p q hp h0 hs hd⟩
        · left
          simp [OrderService.placeOrder, ProductRepository.findByIdWithLock, hp, if_neg h0,
            if_neg hs, ProductRepository.deductStock, hd, PlaceOrderResult.isSuccess]

theorem confirmedSum_nil (r : ℕ) : confirmedSum [] r = 0 := rfl

theorem confirmedSum_append (l1 l2 : List Order) (r : ℕ) :
    confirmedSum (l1 ++ l2) r = confirmedSum l1 r + confirmedSum l2 r := by
  simp [confirmedSum, List.filter_append]

theorem confirmedSum_singleton (o : Order) (r : ℕ) :
    confirmedSum [o] r
      = if o.productId = r ∧ o.status = "CONFIRMED" then o.quantity else 0 := by
  by_cases h1 : o.productId = r <;> by_cases h2 : o.status = "CONFIRMED" <;>
    simp [confirmedSum, h1, h2]

/-- Effect of one `placeOrder` call on the confirmed ledger sum and the stock of an
arbitrary product `r`, together with the bound that holds on the success path. -/
theorem placeOrder_step (st : DBState) (pid : ℕ) (q : ℚ) (r : ℕ) :
    confirmedSum (OrderService.placeOrder st pid q).2.orders r
      = confirmedSum st.orders r +
        (if (OrderService.placeOrder st pid q).1.isSuccess = true ∧ pid = r then q else 0)
    ∧ optionStock (OrderService.placeOrder st pid q).2 r
      = (if (OrderService.placeOrder st pid q).1.isSuccess = true ∧ pid = r
         then (optionStock st r).map (fun s => s - q) else optionStock st r)
    ∧ ((OrderService.placeOrder st pid q).1.isSuccess = true →
        0 < q ∧ ∃ p, st.products pid = some p ∧ q ≤ p.stock) := by
  rcases placeOrder_cases st pid q with ⟨hf, hst⟩ | ⟨p, hp, h0, hle, hd, heq⟩
  · rw [hst, hf]
    simp
  · rw [heq]
    simp only [PlaceOrderResult.isSuccess, true_and]
    refine ⟨?_, ?_, fun _ => ⟨h0, p, hp, hle⟩⟩
    · rw [confirmedSum_append, confirmedSum_singleton]
      simp
    · by_cases hr : pid = r
      · subst hr
        simp [optionStock, hp]
      · simp [optionStock, hr, Ne.symm hr]

theorem runCalls_nil (st : DBState) : runCalls st [] = st := rfl

theorem runCalls_cons (st : DBState) (c : ℕ × ℚ) (cs : List (ℕ × ℚ)) :
    runCalls st (c :: cs) = runCalls (OrderService.placeOrder st c.1 c.2).2 cs := rfl

/-- One `placeOrder` call preserves the conservation invariant for product `r`. -/
theorem invariant_step (Q0 : ℚ) (r : ℕ) (st : DBState) (pid : ℕ) (q : ℚ)
    (h : ∃ s, optionStock st r = some s ∧ 0 ≤ s ∧ s = Q0 - confirmedSum st.orders r) :
    ∃ s, optionStock (OrderService.placeOrder st pid q).2 r = some s ∧ 0 ≤ s ∧
      s = Q0 - confirmedSum (OrderService.placeOrder st pid q).2.orders r := by
  obtain ⟨s, hs, h0s, hval⟩ := h
  obtain ⟨hcs, hos, hb⟩ := placeOrder_step st pid q r
  by_cases hc : (OrderService.placeOrder st pid q).1.isSuccess = true ∧ pid = r
  · obtain ⟨h0q, p, hpp, hqp⟩ := hb hc.1
    have hps : p.stock = s := by
      rw [hc.2] at hpp
      rw [optionStock, hpp] at hs
      simpa using hs
    refine ⟨s - q, ?_, ?_, ?_⟩
    · rw [hos, if_pos hc, hs]
      rfl
    · have : q ≤ s := hps ▸ hqp
      linarith
    · rw [hcs, if_pos hc]
      linarith
  · refine ⟨s, ?_, h0s, ?_⟩
    · rw [hos, if_neg hc]
      exact hs
    · rw [hcs, if_neg hc]
      simpa using hval

/-- The conservation invariant for product `r` is preserved by any sequence of
`placeOrder` calls. -/
theorem invariant_runCalls (Q0 : ℚ) (r : ℕ) (st : DBState) (calls : List (ℕ × ℚ))
    (h : ∃ s, optionStock st r = some s ∧ 0 ≤ s ∧ s = Q0 - confirmedSum st.orders r) :
    ∃ s, optionStock (runCalls st calls) r = some s ∧ 0 ≤ s ∧
      s = Q0 - confirmedSum (runCalls st calls).orders r := by
  induction calls generalizing st with
  | nil => simpa [runCalls_nil] using h
  | cons c cs ih =>
    rw [runCalls_cons]
    exact ih _ (invariant_step Q0 r st c.1 c.2 h)

/-- Along any run, the quantities of the successful calls targeting `r` account
exactly for the growth of the confirmed ledger sum of `r`. -/
theorem successSum_eq_confirmedSum (r : ℕ) (st : DBState) (calls : List (ℕ × ℚ)) :
    successSum r st calls + confirmedSum st.orders r
      = confirmedSum (runCalls st calls).orders r := by
  induction calls generalizing st with
  | nil => simp [successSum, runCalls_nil]
  | cons c cs ih =>
    rw [runCalls_cons, successSum, ← ih (OrderService.placeOrder st c.1 c.2).2,
      (placeOrder_step st c.1 c.2 r).1]
    ring

theorem successOrders_eq_nil (res : PlaceOrderResult) (h : res.isSuccess = false) :
    successOrders res = [] := by
  cases res <;> simp_all [PlaceOrderResult.isSuccess, successOrders]

/-! ## Claim theorems -/

/-- **C1**: for every initial resource state with quantity `Q0 ≥ 0` and an empty
ledger, and every finite sequence of `placeOrder` calls applied one after another
(hence, instantiating `calls` at each prefix, after each call), the quantity of the
resource equals `Q0` minus the sum of the quantities of all CONFIRMED orders
recorded against it, the quantity is never negative, and the sum of the quantities
of the calls that returned success against it never exceeds `Q0`. -/
theorem placeOrder_conservation_invariant (st0 : DBState) (r : ℕ) (Q0 : ℚ)
    (calls : List (ℕ × ℚ))
    (h0 : optionStock st0 r = some Q0) (hQ : 0 ≤ Q0) (hled : st0.orders = []) :
    ∃ s, optionStock (runCalls st0 calls) r = some s
      ∧ s = Q0 - confirmedSum (runCalls st0 calls).orders r
      ∧ 0 ≤ s
      ∧ successSum r st0 calls ≤ Q0 := by
  have hInv : ∃ s, optionStock st0 r = some s ∧ 0 ≤ s ∧ s = Q0 - confirmedSum st0.orders r :=
    ⟨Q0, h0, hQ, by rw [hled, confirmedSum_nil]; ring⟩
  obtain ⟨s, hs, h0s, hval⟩ := invariant_runCalls Q0 r st0 calls hInv
  refine ⟨s, hs, hval, h0s, ?_⟩
  have hss := successSum_eq_confirmedSum r st0 calls
  rw [hled, confirmedSum_nil] at hss
  linarith

/-- Witness for C1: the invariant evaluated on Scenario A
(`stA`, quantity 5, calls (1,3), (1,3), (1,2)). -/
theorem placeOrder_conservation_invariant_witness :
    optionStock stA 1 = some 5 ∧ (0:ℚ) ≤ 5 ∧ stA.orders = []
    ∧ ∃ s, optionStock (runCalls stA [(1,3),(1,3),(1,2)]) 1 = some s
      ∧ s = 5 - confirmedSum (runCalls stA [(1,3),(1,3),(1,2)]).orders 1
      ∧ 0 ≤ s
      ∧ successSum 1 stA [(1,3),(1,3),(1,2)] ≤ 5 :=
  ⟨rfl, by norm_num, rfl,
    placeOrder_conservation_invariant stA 1 5 [(1,3),(1,3),(1,2)] rfl (by norm_num) rfl⟩

/-- **C2**: every `placeOrder` call that returns an unsuccessful result of any kind
(PRODUCT_NOT_FOUND, INVALID_QUANTITY, INSUFFICIENT_STOCK, STOCK_DEDUCTION_FAILED,
INTERNAL_ERROR) leaves the entire database state — the stock of every resource and
the orders ledger — exactly as it was before the call: no partial deduction is
visible and no ledger entry is created by that call. -/
theorem placeOrder_failure_no_mutation (st : DBState) (pid : ℕ) (q : ℚ)
    (h : (OrderService.placeOrder st pid q).1.isSuccess = false) :
    (OrderService.placeOrder st pid q).2 = st := by
  rcases placeOrder_cases st pid q with ⟨_, hst⟩ | ⟨p, _, _, _, _, heq⟩
  · exact hst
  · rw [heq] at h
    simp [PlaceOrderResult.isSuccess] at h

/-- Witness for C2: a call on a state with no products fails and mutates nothing. -/
theorem placeOrder_failure_no_mutation_witness :
    (OrderService.placeOrder stEmpty 1 1).1.isSuccess = false
    ∧ (OrderService.placeOrder stEmpty 1 1).2 = stEmpty :=
  ⟨rfl, placeOrder_failure_no_mutation stEmpty 1 1 rfl⟩

/-- Counterexample to **C3** as stated: with no product of id 1, the call
`placeOrder 1 0` (quantity 0 ≤ 0) returns PRODUCT_NOT_FOUND, not INVALID_QUANTITY:
in the source the existence check (orderService.js lines 41-51) runs before the
quantity check (lines 54-62). -/
theorem placeOrder_notFound_precedes_invalidQuantity_cex :
    (OrderService.placeOrder stEmpty 1 0).1 = .productNotFound
    ∧ PlaceOrderResult.productNotFound ≠ .invalidQuantity :=
  ⟨rfl, by decide⟩

/-- **C3 (amended)**: for quantity ≤ 0 the service mutates nothing, but the
resource-existence check takes precedence: an unknown resourceId yields
PRODUCT_NOT_FOUND and only an existing resource yields INVALID_QUANTITY. The HTTP
controller, in contrast, rejects quantity ≤ 0 as INVALID_QUANTITY before the
service (and its existence check) is ever reached. -/
theorem placeOrder_validation_order (st : DBState) (pid : ℕ) (q : ℚ) (hq : q ≤ 0) :
    (OrderService.placeOrder st pid q).2 = st
    ∧ (OrderService.placeOrder st pid q).1
        = (match st.products pid with
           | none => .productNotFound
           | some _ => .invalidQuantity)
    ∧ (0 < pid → OrderController.placeOrder st pid q = (.invalidQuantity, st)) := by
  refine ⟨?_, ?_, fun hpid => ?_⟩
  · rcases hp : st.products pid with _ | p
    · simp [OrderService.placeOrder, ProductRepository.findByIdWithLock, hp]
    · simp [OrderService.placeOrder, ProductRepository.findByIdWithLock, hp, if_pos hq]
  · rcases hp : st.products pid with _ | p
    · simp [OrderService.placeOrder, ProductRepository.findByIdWithLock, hp]
    · simp [OrderService.placeOrder, ProductRepository.findByIdWithLock, hp, if_pos hq]
  · simp [OrderController.placeOrder, hpid.ne', if_pos hq]

/-- Witness for the amended C3 at quantity 0 on an existing resource. -/
theorem placeOrder_validation_order_witness :
    (0:ℚ) ≤ 0
    ∧ ((OrderService.placeOrder stA 1 0).2 = stA
      ∧ (OrderService.placeOrder stA 1 0).1
          = (match stA.products 1 with
             | none => .productNotFound
             | some _ => .invalidQuantity)
      ∧ (0 < 1 → OrderController.placeOrder stA 1 0 = (.invalidQuantity, stA))) :=
  ⟨le_refl 0, placeOrder_validation_order stA 1 0 (le_refl 0)⟩

/-- Counterexample to **C4** as stated: on a resource with stock 5, the call with
the non-integer quantity 5/2 does not return INVALID_QUANTITY — the service has no
integrality check (`quantity <= 0` is its only quantity validation); the call
reaches the INTEGER-typed storage layer, whose failed cast surfaces as
INTERNAL_ERROR. -/
theorem placeOrder_noninteger_internalError_cex :
    (OrderService.placeOrder stA 1 (5/2)).1 = .internalError
    ∧ PlaceOrderResult.internalError ≠ .invalidQuantity := by
  constructor
  · norm_num [OrderService.placeOrder, ProductRepository.findByIdWithLock,
      ProductRepository.deductStock, OrderRepository.create, stA]
  · decide

/-- **C4 (amended)**: for every existing resource and positive non-integer quantity,
`placeOrder` never returns INVALID_QUANTITY and mutates nothing; when the quantity
is within the available stock the call fails in the storage layer (INTEGER columns)
and surfaces as INTERNAL_ERROR (when it exceeds the stock, INSUFFICIENT_STOCK is
returned first). -/
theorem placeOrder_noninteger_no_invalidQuantity (st : DBState) (pid : ℕ) (p : Product)
    (q : ℚ) (hp : st.products pid = some p) (h0 : 0 < q) (hd : q.den ≠ 1) :
    (OrderService.placeOrder st pid q).1 ≠ .invalidQuantity
    ∧ (OrderService.placeOrder st pid q).2 = st
    ∧ (q ≤ p.stock → (OrderService.placeOrder st pid q).1 = .internalError) := by
  by_cases hs : p.stock < q
  · have heq : OrderService.placeOrder st pid q = (.insufficientStock p.stock, st) := by
      simp [OrderService.placeOrder, ProductRepository.findByIdWithLock, hp,
        if_neg (not_le.mpr h0), if_pos hs]
    rw [heq]
    exact ⟨by simp, rfl, fun hle => absurd hs (not_lt.mpr hle)⟩
  · have heq : OrderService.placeOrder st pid q = (.internalError, st) := by
      simp [OrderService.placeOrder, ProductRepository.findByIdWithLock, hp,
        if_neg (not_le.mpr h0), if_neg hs, ProductRepository.deductStock, hd]
    rw [heq]
    exact ⟨by simp, rfl, fun _ => rfl⟩

/-- Witness for the amended C4 at quantity 5/2 on a resource with stock 5. -/
theorem placeOrder_noninteger_no_invalidQuantity_witness :
    stA.products 1 = some { name := "r", stock := 5 } ∧ (0:ℚ) < 5/2 ∧ (5/2:ℚ).den ≠ 1
    ∧ ((OrderService.placeOrder stA 1 (5/2)).1 ≠ .invalidQuantity
      ∧ (OrderService.placeOrder stA 1 (5/2)).2 = stA
      ∧ ((5/2:ℚ) ≤ 5 → (OrderService.placeOrder stA 1 (5/2)).1 = .internalError)) :=
  ⟨rfl, by norm_num, by norm_num,
    placeOrder_noninteger_no_invalidQuantity stA 1 { name := "r", stock := 5 } (5/2)
      rfl (by norm_num) (by norm_num)⟩

/-- **C5**: for every existing resource and positive integer quantity, `placeOrder`
returns INSUFFICIENT_STOCK iff the requested quantity strictly exceeds the current
stock; in that case the result carries `availableStock` equal to the current stock
and the state (stock and ledger) is unchanged; and requesting exactly the available
quantity succeeds and leaves the stock at 0. -/
theorem placeOrder_insufficientStock_iff (st : DBState) (pid : ℕ) (p : Product)
    (q : ℚ) (hp : st.products pid = some p) (h0 : 0 < q) (hint : q.den = 1) :
    ((OrderService.placeOrder st pid q).1 = .insufficientStock p.stock ↔ p.stock < q)
    ∧ (p.stock < q → OrderService.placeOrder st pid q = (.insufficientStock p.stock, st))
    ∧ (q = p.stock → ∃ o, (OrderService.placeOrder st pid q).1 = .success o
        ∧ optionStock (OrderService.placeOrder st pid q).2 pid = some 0) := by
  by_cases hs : p.stock < q
  · have heq : OrderService.placeOrder st pid q = (.insufficientStock p.stock, st) := by
      simp [OrderService.placeOrder, ProductRepository.findByIdWithLock, hp,
        if_neg (not_le.mpr h0), if_pos hs]
    rw [heq]
    exact ⟨by simp [hs], fun _ => rfl, fun hq => absurd (hq ▸ hs) (lt_irrefl _)⟩
  · have heq := placeOrder_success_eq st pid p q hp (not_le.mpr h0) hs hint
    rw [heq]
    refine ⟨by simp [hs], fun h => absurd h hs, fun hq => ⟨_, rfl, ?_⟩⟩
    subst hq
    simp [optionStock]

/-- Witness for C5: requesting 7 of a resource with stock 5. -/
theorem placeOrder_insufficientStock_iff_witness :
    stA.products 1 = some { name := "r", stock := 5 } ∧ (0:ℚ) < 7 ∧ (7:ℚ).den = 1
    ∧ (((OrderService.placeOrder stA 1 7).1 = .insufficientStock 5 ↔ (5:ℚ) < 7)
      ∧ ((5:ℚ) < 7 → OrderService.placeOrder stA 1 7 = (.insufficientStock 5, stA))
      ∧ ((7:ℚ) = 5 → ∃ o, (OrderService.placeOrder stA 1 7).1 = .success o
          ∧ optionStock (OrderService.placeOrder stA 1 7).2 1 = some 0)) :=
  ⟨rfl, by norm_num, rfl,
    placeOrder_insufficientStock_iff stA 1 { name := "r", stock := 5 } 7 rfl (by norm_num) rfl⟩

/-- **C6**: every successful `placeOrder` call on an existing resource with positive
integer quantity `q` within the available stock returns the created order, whose
status is CONFIRMED, whose quantity is `q` and which references the target
resource; the order is appended to the ledger and the stock of the resource
decreases by exactly `q`. -/
theorem placeOrder_success_creates_confirmed (st : DBState) (pid : ℕ) (p : Product)
    (q : ℚ) (hp : st.products pid = some p) (h0 : 0 < q) (hint : q.den = 1)
    (hle : q ≤ p.stock) :
    ∃ o, (OrderService.placeOrder st pid q).1 = .success o
      ∧ o.status = "CONFIRMED" ∧ o.quantity = q ∧ o.productId = pid
      ∧ (OrderService.placeOrder st pid q).2.orders = st.orders ++ [o]
      ∧ optionStock (OrderService.placeOrder st pid q).2 pid = some (p.stock - q) := by
  have heq := placeOrder_success_eq st pid p q hp (not_le.mpr h0) (not_lt.mpr hle) hint
  rw [heq]
  exact ⟨_, rfl, rfl, rfl, rfl, rfl, by simp [optionStock]⟩

/-- Witness for C6: allocating 3 of a resource with stock 5. -/
theorem placeOrder_success_creates_confirmed_witness :
    stA.products 1 = some { name := "r", stock := 5 } ∧ (0:ℚ) < 3 ∧ (3:ℚ).den = 1
    ∧ (3:ℚ) ≤ (5:ℚ)
    ∧ ∃ o, (OrderService.placeOrder stA 1 3).1 = .success o
      ∧ o.status = "CONFIRMED" ∧ o.quantity = 3 ∧ o.productId = 1
      ∧ (OrderService.placeOrder stA 1 3).2.orders = stA.orders ++ [o]
      ∧ optionStock (OrderService.placeOrder stA 1 3).2 1 = some (5 - 3) :=
  ⟨rfl, by norm_num, rfl, by norm_num,
    placeOrder_success_creates_confirmed stA 1 { name := "r", stock := 5 } 3
      rfl (by norm_num) rfl (by norm_num)⟩

/-- **C7**: for every existing product with current stock `s` and every integer
amount `a`, `deductStock` decreases the stock by `a` and reports success iff
`s ≥ a`; if `s < a` it reports failure and leaves everything unchanged. -/
theorem deductStock_success_iff (st : DBState) (pid : ℕ) (p : Product) (a : ℤ)
    (hp : st.products pid = some p) :
    (p.stock < (a : ℚ) → ProductRepository.deductStock st pid (a : ℚ) = some (false, st))
    ∧ ((a : ℚ) ≤ p.stock →
        ∃ st', ProductRepository.deductStock st pid (a : ℚ) = some (true, st')
          ∧ st'.products pid = some { name := p.name, stock := p.stock - (a : ℚ) }
          ∧ (∀ j, j ≠ pid → st'.products j = st.products j)
          ∧ st'.orders = st.orders
          ∧ optionStock st' pid = some (p.stock - (a : ℚ))) := by
  have hden : ((a : ℚ)).den = 1 := Rat.den_intCast a
  constructor
  · intro hlt
    simp [ProductRepository.deductStock, hden, hp, if_neg (not_le.mpr hlt)]
  · intro hle
    refine ⟨{ st with products := fun j =>
        if j = pid then some { name := p.name, stock := p.stock - (a : ℚ) }
        else st.products j }, ?_, ?_, ?_, rfl, ?_⟩
    · simp [ProductRepository.deductStock, hden, hp, if_pos hle]
    · simp
    · intro j hj
      simp [if_neg hj]
    · simp [optionStock]

/-- Witness for C7: deducting 7 from a product with stock 5 (the failure side is
exercised; the success side holds vacuously at this amount). -/
theorem deductStock_success_iff_witness :
    stA.products 1 = some { name := "r", stock := 5 }
    ∧ (((5:ℚ) < ((7:ℤ) : ℚ) → ProductRepository.deductStock stA 1 ((7:ℤ) : ℚ) = some (false, stA))
      ∧ (((7:ℤ) : ℚ) ≤ (5:ℚ) →
          ∃ st', ProductRepository.deductStock stA 1 ((7:ℤ) : ℚ) = some (true, st')
            ∧ st'.products 1 = some { name := "r", stock := 5 - ((7:ℤ) : ℚ) }
            ∧ (∀ j, j ≠ 1 → st'.products j = stA.products j)
            ∧ st'.orders = stA.orders
            ∧ optionStock st' 1 = some (5 - ((7:ℤ) : ℚ)))) :=
  ⟨rfl, deductStock_success_iff stA 1 { name := "r", stock := 5 } 7 rfl⟩

/-- **C8** (Scenario A): starting from a resource with quantity 5, the sequential
calls allocate(r,3), allocate(r,3), allocate(r,2) yield success with remaining 2,
then INSUFFICIENT_STOCK with availableStock 2 (state unchanged), then success with
remaining 0. -/
theorem placeOrder_scenarioA :
    (OrderService.placeOrder stA 1 3).1.isSuccess = true
    ∧ optionStock stA1 1 = some 2
    ∧ (OrderService.placeOrder stA1 1 3).1 = .insufficientStock 2
    ∧ optionStock stA2 1 = some 2
    ∧ (OrderService.placeOrder stA2 1 2).1.isSuccess = true
    ∧ optionStock (OrderService.placeOrder stA2 1 2).2 1 = some 0 := by
  norm_num [OrderService.placeOrder, ProductRepository.findByIdWithLock,
    ProductRepository.deductStock, OrderRepository.create, stA, stA1, stA2,
    optionStock, PlaceOrderResult.isSuccess]

/-- **C9**: for every database state, the result of `OrderRepository.findAll` is
sorted by creation time in descending order, and each row is joined with the
display name of the product it references. -/
theorem findAll_sorted_and_joined (st : DBState) :
    List.Sorted createdDesc (OrderRepository.findAll st)
    ∧ ∀ e ∈ OrderRepository.findAll st,
        ∃ p, st.products e.productId = some p ∧ e.productName = p.name := by
  constructor
  · exact List.sorted_insertionSort createdDesc _
  · intro e he
    rw [OrderRepository.findAll, List.mem_insertionSort] at he
    obtain ⟨o, ho, hmap⟩ := List.mem_filterMap.mp he
    obtain ⟨p, hp, he⟩ := Option.map_eq_some'.mp hmap
    subst he
    exact ⟨p, hp, rfl⟩

/-- Witness for C9: evaluated on a state with two confirmed orders. -/
theorem findAll_sorted_and_joined_witness :
    List.Sorted createdDesc (OrderRepository.findAll stC9)
    ∧ ∀ e ∈ OrderRepository.findAll stC9,
        ∃ p, stC9.products e.productId = some p ∧ e.productName = p.name :=
  findAll_sorted_and_joined stC9

/-- **C10**: `placeOrder` appends a ledger entry only on its success path, the entry
always has status CONFIRMED, references the target resource with the requested
quantity, and the stock decreases by the requested quantity exactly when an entry
is appended — no rejection of any kind creates a ledger entry. -/
theorem placeOrder_ledger_only_on_success (st : DBState) (pid : ℕ) (q : ℚ) :
    (OrderService.placeOrder st pid q).2.orders
      = st.orders ++ successOrders (OrderService.placeOrder st pid q).1
    ∧ (successOrders (OrderService.placeOrder st pid q).1).all
        (fun o => o.status == "CONFIRMED" && o.productId == pid && o.quantity == q) = true
    ∧ optionStock (OrderService.placeOrder st pid q).2 pid
      = (if (OrderService.placeOrder st pid q).1.isSuccess = true
         then (optionStock st pid).map (fun s => s - q) else optionStock st pid) := by
  rcases placeOrder_cases st pid q with ⟨hf, hst⟩ | ⟨p, hp, h0, hle, hd, heq⟩
  · rw [hst, hf, successOrders_eq_nil _ hf]
    simp
  · rw [heq]
    refine ⟨by simp [successOrders], by simp [successOrders], ?_⟩
    simp [PlaceOrderResult.isSuccess, optionStock, hp]
